import Mathlib

/-!
Shallow embedding of the go-todo-cli storage engine (internal/models,
internal/storage, internal/storage/memory MemoryStore, storage/file FileStore).

Modelling conventions:
* Go `time.Time` values are modelled as `Nat`; the zero value `time.Time{}`
  is `0`, `a.Before(b)` is `a < b`, `a.After(b)` is `b < a`, `IsZero` is `= 0`.
* Go maps `map[int]models.Task` are modelled as association lists
  `List (Nat × Task)`; `delete` removes the binding, assignment replaces it.
  Iteration order over the map is unspecified in Go, so every claim about the
  contents of a listing is stated through membership, never through order.
* A Go `panic` is modelled as the `none` / `.panicked` result of the function
  in which it occurs (no Go code in this repository recovers a panic).
* Functions returning `error` are modelled with `Except StoreErr`.
* File I/O (saveIfNeeded / save / loadFromFile) never touches the in-memory
  task map, so it is modelled as always succeeding; the persistence-only
  fields of FileStore (filePath, lastSave, autoSaveTime) are omitted.
-/

namespace TodoCli

/-- models.Priority (unnamed/part_002): Low | Medium | High | Urgent, ordered. -/
inductive Priority where
  | Low
  | Medium
  | High
  | Urgent
deriving DecidableEq, Repr

/-- Ordinal of a Priority, used by the `<` comparisons on the Go enum (ints). -/
def Priority.toNat : Priority → Nat
  | .Low => 0
  | .Medium => 1
  | .High => 2
  | .Urgent => 3

/-- models.TaskStatus (unnamed/part_002): NotStarted | InProgress | Completed | Archived. -/
inductive TaskStatus where
  | NotStarted
  | InProgress
  | Completed
  | Archived
deriving DecidableEq, Repr

/-- Ordinal of a TaskStatus, used by the `<` comparisons on the Go enum (ints). -/
def TaskStatus.toNat : TaskStatus → Nat
  | .NotStarted => 0
  | .InProgress => 1
  | .Completed => 2
  | .Archived => 3

/-- models.Task (unnamed/part_002).  The fields SubTasks, Notes, References,
EstimatedMin, ActualMin, Reminder and SharedWith are omitted: no function
modelled here reads or writes them. -/
structure Task where
  id : Nat
  name : String
  description : String
  status : TaskStatus
  priority : Priority
  createdAt : Nat
  updatedAt : Nat
  dueDate : Nat
  completedAt : Nat
  progress : Int
  tags : List String
  category : String
deriving DecidableEq, Repr

/-- Default task value (Go zero value of models.Task), used only as the
out-of-range default for list indexing inside sort closures. -/
def defTask : Task :=
  { id := 0, name := "", description := "", status := .NotStarted,
    priority := .Low, createdAt := 0, updatedAt := 0, dueDate := 0,
    completedAt := 0, progress := 0, tags := [], category := "" }

/-- Errors of the storage package (storage errors ErrStorageConnection,
ErrTaskValidation, ErrTaskNotFound); wrapping with fmt.Errorf keeps the
underlying sentinel, so only the sentinel is modelled. -/
inductive StoreErr where
  | connection
  | validation
  | notFound
deriving DecidableEq, Repr

/-- Result of an operation that can also panic (ListTasks). -/
inductive GoResult (α : Type) where
  | ok : α → GoResult α
  | err : StoreErr → GoResult α
  | panicked : GoResult α
deriving DecidableEq, Repr

/-- models.Task.Validate (unnamed/part_002 lines 108-123): name non-empty,
progress within [0,100], due date zero or not before now.  `true` means the
Go method returns nil. -/
def Task.ValidateOk (t : Task) (now : Nat) : Bool :=
  !(t.name == "") &&
  !(decide (t.progress < 0) || decide (100 < t.progress)) &&
  (t.dueDate == 0 || !(decide (t.dueDate < now)))

/-- models.Task.IsOverdue (unnamed/part_002 lines 207-210):
due date non-zero and now strictly after it.  Note there is no condition on
the task status. -/
def Task.IsOverdue (t : Task) (now : Nat) : Bool :=
  !(t.dueDate == 0) && decide (t.dueDate < now)

/-- Go map read `tasks[id]` on the association-list model. -/
def lookupTask : List (Nat × Task) → Nat → Option Task
  | [], _ => none
  | p :: rest, id => if p.1 = id then some p.2 else lookupTask rest id

/-- Go map `delete(tasks, id)` on the association-list model. -/
def eraseTask (m : List (Nat × Task)) (id : Nat) : List (Nat × Task) :=
  m.filter (fun p => !(decide (p.1 = id)))

/-- Go map write `tasks[id] = t` on the association-list model. -/
def insertTask (m : List (Nat × Task)) (id : Nat) (t : Task) : List (Nat × Task) :=
  if (lookupTask m id).isSome then
    m.map (fun p => if p.1 = id then (id, t) else p)
  else
    m ++ [(id, t)]

/-- Contiguous starting-segment test on character lists (helper for the model
of strings.Contains). -/
def startsWithChars : List Char → List Char → Bool
  | _, [] => true
  | [], _ :: _ => false
  | a :: l, b :: m => a == b && startsWithChars l m

/-- Contiguous-occurrence test on character lists (helper for the model of
strings.Contains). -/
def hasSubChars : List Char → List Char → Bool
  | [], sub => sub.isEmpty
  | a :: l, sub => startsWithChars (a :: l) sub || hasSubChars l sub

/-- strings.Contains(hay, sub). -/
def goContains (hay sub : String) : Bool :=
  hasSubChars hay.data sub.data

/-- strings.ToLower, modelled character-wise on the underlying list. -/
def goToLower (s : String) : String :=
  String.mk (s.data.map Char.toLower)

/-- storage.Filter (query primitives in the storage package). -/
structure Filter where
  status : Option TaskStatus
  priority : Option Priority
  category : String
  tags : List String
  dueBefore : Option Nat
  dueAfter : Option Nat
  isOverdue : Bool
  searchTerm : String
deriving DecidableEq, Repr

/-- storage.SortOption: a sort key name plus a direction flag. -/
structure SortOption where
  Field : String
  Ascending : Bool
deriving DecidableEq, Repr

/-- storage.Page: offset and limit, Go ints (signed). -/
structure Page where
  Offset : Int
  Limit : Int
deriving DecidableEq, Repr

/-- taskSorter (memory/store.go and the file variant): the slice plus the
comparison closure handed to the Sort call. -/
structure taskSorter where
  tasks : List Task
  less : Nat → Nat → Bool

/-- storage.SortOption.Sort (cli.go storage section, lines 695-697): its whole
body is a panic with message "unimplemented".  Inside both sortTasks methods
the parameter named sort shadows the sort package, so the call written
sort.Sort(...) dispatches here.  The `none` result models the panic. -/
def SortOption.Sort (_so : SortOption) (_sorter : taskSorter) : Option (List Task) :=
  none

/-- MemoryStore (memory/store.go lines 15-20); the RWMutex is irrelevant to
the sequential claims proved here. -/
structure MemoryStore where
  tasks : List (Nat × Task)
  maxID : Nat
  isActive : Bool
deriving DecidableEq, Repr

/-- NewMemoryStore (memory/store.go lines 23-29). -/
def newMemoryStore : MemoryStore :=
  { tasks := [], maxID := 0, isActive := true }

/-- FileStore (file variant of store.go, lines 392-400); filePath, lastSave
and autoSaveTime only drive file I/O, which is not modelled (saveIfNeeded
never touches the task map and is modelled as always succeeding). -/
structure FileStore where
  tasks : List (Nat × Task)
  maxID : Nat
  isActive : Bool
deriving DecidableEq, Repr

/-- MemoryStore.matchesFilter (memory/store.go lines 264-312).  Each early
`return false` of the Go code becomes one conjunct; `now` is the time at
which task.IsOverdue() calls time.Now(). -/
def memMatchesFilter (t : Task) (fo : Option Filter) (now : Nat) : Bool :=
  match fo with
  | none => true
  | some f =>
    (match f.status with | none => true | some st => t.status == st) &&
    (match f.priority with | none => true | some pr => t.priority == pr) &&
    (f.category == "" || t.category == f.category) &&
    (f.tags.isEmpty || f.tags.any (fun ft => t.tags.any (fun tt => ft == tt))) &&
    (match f.dueBefore with | none => true | some d => decide (t.dueDate < d)) &&
    (match f.dueAfter with | none => true | some d => decide (d < t.dueDate)) &&
    (!f.isOverdue || t.IsOverdue now)

/-- FileStore.matchesFilter (file variant, lines 1100-1158).  Differs from the
memory version: the overdue conjunct tests DueDate.Before(now) and
Status != Completed directly (no IsZero test), and there is an extra
SearchTerm conjunct over name, description and category. -/
def fileMatchesFilter (t : Task) (fo : Option Filter) (now : Nat) : Bool :=
  match fo with
  | none => true
  | some f =>
    (match f.status with | none => true | some st => t.status == st) &&
    (match f.priority with | none => true | some pr => t.priority == pr) &&
    (f.category == "" || t.category == f.category) &&
    (f.tags.isEmpty || f.tags.any (fun ft => t.tags.any (fun tt => ft == tt))) &&
    (match f.dueBefore with | none => true | some d => decide (t.dueDate < d)) &&
    (match f.dueAfter with | none => true | some d => decide (d < t.dueDate)) &&
    (!f.isOverdue || (decide (t.dueDate < now) && !(t.status == .Completed))) &&
    (f.searchTerm == "" ||
      (goContains (goToLower t.name) (goToLower f.searchTerm) ||
       goContains (goToLower t.description) (goToLower f.searchTerm) ||
       goContains (goToLower t.category) (goToLower f.searchTerm)))

/-- Comparator body of the closure built by MemoryStore.sortTasks
(memory/store.go lines 322-340), factored over the two indexed tasks.  The
SortOption it receives is the one already mutated by sortTasks (Field
lower-cased, Ascending forced to true). -/
def memLessFn (so : SortOption) (a b : Task) : Bool :=
  let result :=
    if so.Field == "due_date" then decide (a.dueDate < b.dueDate)
    else if so.Field == "priority" then decide (a.priority.toNat < b.priority.toNat)
    else if so.Field == "created_at" then decide (a.createdAt < b.createdAt)
    else if so.Field == "name" then decide (a.name < b.name)
    else decide (a.id < b.id)
  if !so.Ascending then !result else result

/-- Mutation performed by MemoryStore.sortTasks before building its closure
(memory/store.go lines 319-320): sort.Field = ToLower(sort.Field) and
sort.Ascending = true. -/
def memSortPrep (so : SortOption) : SortOption :=
  { Field := (goToLower so.Field), Ascending := true }

/-- MemoryStore.sortTasks (memory/store.go lines 314-343) for a non-nil sort:
mutates the SortOption, builds the closure, and calls sort.Sort, which is
storage.SortOption.Sort and panics.  `none` models the panic. -/
def memSortTasks (ts : List Task) (so : SortOption) : Option (List Task) :=
  let so2 := memSortPrep so
  so2.Sort { tasks := ts, less := fun i j => memLessFn so2 (ts.getD i defTask) (ts.getD j defTask) }

/-- Comparator body of the closure built by FileStore.sortTasks (file variant,
lines 1170-1209), factored over the two indexed tasks.  For due_date and
completed_at the zero-value checks return from the closure directly, so they
bypass the direction inversion at the bottom.  The SortOption it receives has
Field already lower-cased by sortTasks. -/
def fileLessFn (so : SortOption) (a b : Task) : Bool :=
  let dir := fun (r : Bool) => if !so.Ascending then !r else r
  if so.Field == "due_date" then
    if a.dueDate == 0 then false
    else if b.dueDate == 0 then true
    else dir (decide (a.dueDate < b.dueDate))
  else if so.Field == "completed_at" then
    if a.completedAt == 0 then false
    else if b.completedAt == 0 then true
    else dir (decide (a.completedAt < b.completedAt))
  else
    dir (
      if so.Field == "priority" then decide (a.priority.toNat < b.priority.toNat)
      else if so.Field == "created_at" then decide (a.createdAt < b.createdAt)
      else if so.Field == "updated_at" then decide (a.updatedAt < b.updatedAt)
      else if so.Field == "status" then decide (a.status.toNat < b.status.toNat)
      else if so.Field == "category" then decide (a.category < b.category)
      else if so.Field == "name" then decide (a.name < b.name)
      else decide (a.id < b.id))

/-- Mutation performed by FileStore.sortTasks before building its closure
(file variant, line 1166): sort.Field = ToLower(sort.Field); the direction
flag is left alone. -/
def fileSortPrep (so : SortOption) : SortOption :=
  { Field := (goToLower so.Field), Ascending := so.Ascending }

/-- FileStore.sortTasks (file variant, lines 1161-1213) for a non-nil sort:
lower-cases the field, builds the closure, and calls sort.Sort — the
parameter named sort shadows the sort package, so this is again
storage.SortOption.Sort and panics.  `none` models the panic. -/
def fileSortTasks (ts : List Task) (so : SortOption) : Option (List Task) :=
  let so2 := fileSortPrep so
  so2.Sort { tasks := ts, less := fun i j => fileLessFn so2 (ts.getD i defTask) (ts.getD j defTask) }

/-- MemoryStore.paginateTasks (memory/store.go lines 345-361).  Offset and
Limit are Go ints.  `none` models the panic of the slice expression
tasks[start:end] when start is negative (Go requires 0 <= low). -/
def memPaginateTasks (ts : List Task) (po : Option Page) : Option (List Task) :=
  match po with
  | none => some ts
  | some p =>
    if p.Limit ≤ 0 then some ts
    else
    let start := p.Offset
    if (ts.length : Int) ≤ start then some []
    else
      let stop := if (ts.length : Int) < start + p.Limit then (ts.length : Int) else start + p.Limit
      if start < 0 then none
      else some ((ts.drop start.toNat).take (stop - start).toNat)

/-- FileStore.paginateTasks (file variant, lines 1216-1232): identical code to
the memory version. -/
def filePaginateTasks (ts : List Task) (po : Option Page) : Option (List Task) :=
  match po with
  | none => some ts
  | some p =>
    if p.Limit ≤ 0 then some ts
    else
    let start := p.Offset
    if (ts.length : Int) ≤ start then some []
    else
      let stop := if (ts.length : Int) < start + p.Limit then (ts.length : Int) else start + p.Limit
      if start < 0 then none
      else some ((ts.drop start.toNat).take (stop - start).toNat)

/-- MemoryStore.ListTasks (memory/store.go lines 142-169): checkActive,
filter, sort when non-nil (which panics), then paginate when non-nil. -/
def memListTasks (s : MemoryStore) (fo : Option Filter) (so : Option SortOption)
    (po : Option Page) (now : Nat) : GoResult (List Task) :=
  if !s.isActive then .err .connection
  else
    let ts := (s.tasks.map Prod.snd).filter (fun t => memMatchesFilter t fo now)
    match so with
    | some sopt =>
      match memSortTasks ts sopt with
      | none => .panicked
      | some sorted =>
        match memPaginateTasks sorted po with
        | none => .panicked
        | some res => .ok res
    | none =>
      match memPaginateTasks ts po with
      | none => .panicked
      | some res => .ok res

/-- FileStore.ListTasks (file variant, lines 717-744): same shape as the
memory version but with the file store's filter, sort and paginate. -/
def fileListTasks (s : FileStore) (fo : Option Filter) (so : Option SortOption)
    (po : Option Page) (now : Nat) : GoResult (List Task) :=
  if !s.isActive then .err .connection
  else
    let ts := (s.tasks.map Prod.snd).filter (fun t => fileMatchesFilter t fo now)
    match so with
    | some sopt =>
      match fileSortTasks ts sopt with
      | none => .panicked
      | some sorted =>
        match filePaginateTasks sorted po with
        | none => .panicked
        | some res => .ok res
    | none =>
      match filePaginateTasks ts po with
      | none => .panicked
      | some res => .ok res

/-- MemoryStore.CreateTask (memory/store.go lines 64-83): checkActive,
Validate, bump maxID, overwrite the task's ID and timestamps, insert.  On
success the stored task is also returned (Go mutates the caller's task in
place). -/
def memCreateTask (s : MemoryStore) (t : Task) (now : Nat) :
    Except StoreErr Task × MemoryStore :=
  if !s.isActive then (.error .connection, s)
  else if !(t.ValidateOk now) then (.error .validation, s)
  else
    let newId := s.maxID + 1
    let t2 := { t with id := newId, createdAt := now, updatedAt := now }
    (.ok t2, { s with maxID := newId, tasks := insertTask s.tasks newId t2 })

/-- MemoryStore.DeleteTask (memory/store.go lines 125-139). -/
def memDeleteTask (s : MemoryStore) (id : Nat) : Except StoreErr Unit × MemoryStore :=
  if !s.isActive then (.error .connection, s)
  else if (lookupTask s.tasks id).isSome then
    (.ok (), { s with tasks := eraseTask s.tasks id })
  else (.error .notFound, s)

/-- MemoryStore.UpdateTask (memory/store.go lines 103-122): checkActive,
Validate, existence check, then replace and stamp UpdatedAt. -/
def memUpdateTask (s : MemoryStore) (t : Task) (now : Nat) :
    Except StoreErr Unit × MemoryStore :=
  if !s.isActive then (.error .connection, s)
  else if !(t.ValidateOk now) then (.error .validation, s)
  else if (lookupTask s.tasks t.id).isSome then
    (.ok (), { s with tasks := insertTask s.tasks t.id { t with updatedAt := now } })
  else (.error .notFound, s)

/-- FileStore.UpdateTask (file variant, lines 533-553): same checks as the
memory version; on success it additionally calls saveIfNeeded, which never
touches the task map and is modelled as succeeding. -/
def fileUpdateTask (s : FileStore) (t : Task) (now : Nat) :
    Except StoreErr Unit × FileStore :=
  if !s.isActive then (.error .connection, s)
  else if !(t.ValidateOk now) then (.error .validation, s)
  else if (lookupTask s.tasks t.id).isSome then
    (.ok (), { s with tasks := insertTask s.tasks t.id { t with updatedAt := now } })
  else (.error .notFound, s)

/-- FileStore.GetTask (file variant, lines 516-530): returns a copy of the
stored task. -/
def fileGetTask (s : FileStore) (id : Nat) : Except StoreErr Task :=
  if !s.isActive then .error .connection
  else
    match lookupTask s.tasks id with
    | none => .error .notFound
    | some t => .ok t

/-- FileStore.MarkTaskComplete (file variant, lines 930-939): GetTask, set
Status = Completed and CompletedAt = now on the copy, then UpdateTask (which
re-validates). -/
def fileMarkTaskComplete (s : FileStore) (id : Nat) (now : Nat) :
    Except StoreErr Unit × FileStore :=
  match fileGetTask s id with
  | .error e => (.error e, s)
  | .ok t =>
    fileUpdateTask s { t with status := .Completed, completedAt := now } now

/-- Loop body of FileStore.DeleteTasks (file variant, lines 827-832): walk the
id list, deleting as it goes, and stop with the first id that is not present.
The first component is the id the loop failed on, if any; the second is the
task map when the loop stopped. -/
def deleteTasksLoop : List (Nat × Task) → List Nat → Option Nat × List (Nat × Task)
  | m, [] => (none, m)
  | m, id :: rest =>
    if (lookupTask m id).isSome then deleteTasksLoop (eraseTask m id) rest
    else (some id, m)

/-- FileStore.DeleteTasks (file variant, lines 819-835): checkActive then the
deletion loop; a missing id aborts the loop with a wrapped ErrTaskNotFound,
leaving the deletions already performed in place. -/
def fileDeleteTasks (s : FileStore) (ids : List Nat) :
    Except StoreErr Unit × FileStore :=
  if !s.isActive then (.error .connection, s)
  else
    match deleteTasksLoop s.tasks ids with
    | (none, m) => (.ok (), { s with tasks := m })
    | (some _, m) => (.error .notFound, { s with tasks := m })

/-- MemoryStore.SearchTasks (memory/store.go lines 172-192): lower-cases the
query once and keeps a task when the lowered name, description or category
contains it.  Tags are not examined. -/
def memSearchTasks (s : MemoryStore) (query : String) : Except StoreErr (List Task) :=
  if !s.isActive then .error .connection
  else
    let q := (goToLower query)
    .ok ((s.tasks.map Prod.snd).filter (fun t =>
      goContains (goToLower t.name) q ||
      goContains (goToLower t.description) q ||
      goContains (goToLower t.category) q))

/-- FileStore.containsTag (file variant, lines 1003-1010). -/
def fileContainsTag (tags : List String) (q : String) : Bool :=
  tags.any (fun tag => goContains (goToLower tag) q)

/-- FileStore.taskMatchesSearch (file variant, lines 996-1001): name,
description, category, or some tag contains the lowered query. -/
def fileTaskMatchesSearch (t : Task) (q : String) : Bool :=
  goContains (goToLower t.name) q ||
  goContains (goToLower t.description) q ||
  goContains (goToLower t.category) q ||
  fileContainsTag t.tags q

/-- FileStore.SearchTasks (file variant, lines 747-765). -/
def fileSearchTasks (s : FileStore) (query : String) : Except StoreErr (List Task) :=
  if !s.isActive then .error .connection
  else
    let q := (goToLower query)
    .ok ((s.tasks.map Prod.snd).filter (fun t => fileTaskMatchesSearch t q))

/-- Seven days, the upcoming-deadline window of GetTaskSummary
(now.AddDate(0, 0, 7)), in the abstract time unit of the model. -/
def sevenDays : Nat := 7

/-- storage.TaskSummary; the TasksByCategory and TasksByPriority histogram
maps are omitted: no claim concerns them. -/
structure TaskSummary where
  totalTasks : Nat
  completedTasks : Nat
  pendingTasks : Nat
  overdueTasks : Nat
  upcomingDeadlines : List Task
deriving DecidableEq, Repr

/-- MemoryStore.GetTaskSummary (memory/store.go lines 214-253).  Each counter
incremented inside the single loop becomes a countP with the loop's
condition; in particular OverdueTasks counts tasks with a non-zero due date
strictly before now whose status is not Completed (line 237). -/
def memGetTaskSummary (s : MemoryStore) (now : Nat) : Except StoreErr TaskSummary :=
  if !s.isActive then .error .connection
  else
    let ts := s.tasks.map Prod.snd
    .ok {
      totalTasks := ts.length
      completedTasks := ts.countP (fun t => t.status == .Completed)
      pendingTasks := ts.countP (fun t => !(t.status == .Completed))
      overdueTasks := ts.countP (fun t =>
        !(t.dueDate == 0) && decide (t.dueDate < now) && !(t.status == .Completed))
      upcomingDeadlines := ts.filter (fun t =>
        !(t.dueDate == 0) && decide (now < t.dueDate) && decide (t.dueDate < now + sevenDays))
    }

/-- Creation-window test of GetProductivityStats (file variant, line 968):
the loop skips a task when CreatedAt.Before(startDate) or
CreatedAt.After(endDate). -/
def inCreatedRange (startDate endDate : Nat) (t : Task) : Bool :=
  !(decide (t.createdAt < startDate)) && !(decide (endDate < t.createdAt))

/-- Productivity statistics of GetProductivityStats; the category and
priority histogram maps are omitted: no claim concerns them.  completionRate
models the Go float64 value: `none` is the NaN produced by 0.0/0.0, and
`some r` the exact quotient otherwise. -/
structure ProdStats where
  totalTasks : Nat
  completedTasks : Nat
  completionRate : Option ℚ
  overdueTasks : Nat
deriving DecidableEq, Repr

/-- FileStore.GetProductivityStats (file variant, lines 954-992): restrict to
tasks created within [startDate, endDate], count totals, completions and
IsOverdue() tasks, and compute
completion_rate = float64(completed) / float64(total) * 100 unconditionally —
which is NaN (modelled as none) when the window holds no task. -/
def fileGetProductivityStats (s : FileStore) (startDate endDate now : Nat) :
    Except StoreErr ProdStats :=
  if !s.isActive then .error .connection
  else
    let ts := (s.tasks.map Prod.snd).filter (inCreatedRange startDate endDate)
    let total := ts.length
    let completed := ts.countP (fun t => t.status == .Completed)
    .ok {
      totalTasks := total
      completedTasks := completed
      completionRate :=
        if total == 0 then none
        else some ((completed : ℚ) / (total : ℚ) * 100)
      overdueTasks := ts.countP (fun t => t.IsOverdue now)
    }

/-- One engine call in a CreateTask / DeleteTask sequence against one
MemoryStore instance; the create carries the time at which it runs (used by
Validate and the timestamps). -/
inductive MemOp where
  | create (t : Task) (now : Nat)
  | delete (id : Nat)

/-- Run a sequence of create/delete calls against a MemoryStore, collecting
in order the IDs assigned by the successful creates. -/
def memRunOps (s : MemoryStore) : List MemOp → MemoryStore × List Nat
  | [] => (s, [])
  | op :: rest =>
    let step : MemoryStore × List Nat :=
      match op with
      | .create t now =>
        match memCreateTask s t now with
        | (.ok t2, s2) => (s2, [t2.id])
        | (.error _, s2) => (s2, [])
      | .delete id => ((memDeleteTask s id).2, [])
    let tail := memRunOps step.1 rest
    (tail.1, step.2 ++ tail.2)

/-- Search predicate in the words of the spec, for comparison with the two
implementations: case-insensitive substring match across name, description,
category, and tags. -/
def specSearchMatch (t : Task) (query : String) : Bool :=
  let q := (goToLower query)
  goContains (goToLower t.name) q ||
  goContains (goToLower t.description) q ||
  goContains (goToLower t.category) q ||
  t.tags.any (fun tag => goContains (goToLower tag) q)

/-- Filter whose only active sub-filter is IsOverdue. -/
def overdueOnlyFilter : Filter :=
  { status := none, priority := none, category := "", tags := [],
    dueBefore := none, dueAfter := none, isOverdue := true, searchTerm := "" }

/-- Empty, connected file store (concrete states for witnesses). -/
def fsEmpty : FileStore := { tasks := [], maxID := 0, isActive := true }

/-- A task passing Validate at every time: non-empty name, progress 0, no due
date. -/
def tValid : Task := { defTask with name := "a" }

/-- Task used in the create/delete sequence witness. -/
def demoTask : Task := { defTask with name := "demo" }

/-- Create, create, then delete the first id. -/
def demoOps : List MemOp := [.create demoTask 5, .create demoTask 5, .delete 1]

/-- The single record left by demoOps: id 2, stamped at time 5. -/
def demoPair : Nat × Task := (2, { demoTask with id := 2, createdAt := 5, updatedAt := 5 })

/-- Task whose only occurrence of "work" is in its tags. -/
def tagTask : Task := { defTask with name := "a", tags := ["work"] }

/-- Memory store holding only tagTask. -/
def msTag : MemoryStore := { tasks := [(1, tagTask)], maxID := 1, isActive := true }

/-- File store holding only tagTask. -/
def fsTag : FileStore := { tasks := [(1, tagTask)], maxID := 1, isActive := true }

/-- A Completed task whose due date (1) lies strictly before the probe time
(2): overdue by the IsOverdue method, not overdue by the summary loop. -/
def doneLate : Task :=
  { defTask with name := "x", status := .Completed, dueDate := 1, createdAt := 1 }

/-- Memory store holding only doneLate. -/
def msDone : MemoryStore := { tasks := [(1, doneLate)], maxID := 1, isActive := true }

/-- File store holding only doneLate. -/
def fsDone : FileStore := { tasks := [(1, doneLate)], maxID := 1, isActive := true }

/-- Task with no due date (zero value). -/
def noDueTask : Task := { defTask with name := "n" }

/-- Task with due date 5. -/
def dueTask : Task := { defTask with name := "d", dueDate := 5 }

/-- Task created at time 1, outside the window [10, 20] probed in the
productivity-stats counterexample. -/
def tOld : Task := { defTask with name := "o", createdAt := 1 }

/-- File store whose only task was created outside [10, 20]. -/
def c3Store : FileStore := { tasks := [(1, tOld)], maxID := 1, isActive := true }

/-- Task already overdue at every probe time beyond 1. -/
def tLate : Task := { defTask with name := "late", dueDate := 1 }

/-- File store holding tLate under id 7. -/
def fsLate : FileStore := { tasks := [(7, tLate)], maxID := 7, isActive := true }

/-- File store holding one task under id 1 (batch-delete counterexample). -/
def fsOne : FileStore := { tasks := [(1, tValid)], maxID := 1, isActive := true }

/-- The task stored by a successful create: the argument with the id and
timestamps overwritten by the engine (helper for stating the create shape). -/
def stampTask (t : Task) (newId now : Nat) : Task :=
  { t with id := newId, createdAt := now, updatedAt := now }

/-- Claim C1: every ListTasks call on a connected store (memory-backed or
file-backed) that passes a non-nil SortOption panics instead of returning:
inside both sortTasks methods the parameter named sort shadows the sort
package, so the call sort.Sort dispatches to storage.SortOption.Sort, whose
body is a panic. -/
theorem C1_listTasks_with_sort_panics (ms : MemoryStore) (fs : FileStore)
    (fo : Option Filter) (so : SortOption) (po : Option Page) (now : Nat)
    (hm : ms.isActive = true) (hf : fs.isActive = true) :
    memListTasks ms fo (some so) po now = .panicked ∧
    fileListTasks fs fo (some so) po now = .panicked := by
  constructor <;>
    simp [memListTasks, fileListTasks, hm, hf, memSortTasks, fileSortTasks, SortOption.Sort]

/-- Witness for C1 at concrete connected stores and a concrete sort option. -/
theorem C1_witness :
    memListTasks newMemoryStore none (some { Field := "due_date", Ascending := true }) none 0
      = .panicked ∧
    fileListTasks fsEmpty none (some { Field := "due_date", Ascending := true }) none 0
      = .panicked :=
  C1_listTasks_with_sort_panics newMemoryStore fsEmpty none
    { Field := "due_date", Ascending := true } none 0 rfl rfl

/-- Claim C3 (code bug): on a window containing no task creation,
GetProductivityStats computes completion_rate as float64(0)/float64(0)*100,
which is NaN (modelled as none), not the 0 promised by the spec.  Here the
store's only task was created at time 1 and the window is [10, 20]. -/
theorem C3_completionRate_NaN_on_empty_window :
    fileGetProductivityStats c3Store 10 20 15 =
      .ok { totalTasks := 0, completedTasks := 0, completionRate := none, overdueTasks := 0 } := by
  rfl

/-- Claim C4: marking an already-overdue stored task complete through the
file store always fails and leaves the stored record set unchanged, because
UpdateTask re-validates and Task.Validate rejects a non-zero past due date. -/
theorem C4_markComplete_overdue_fails (s : FileStore) (id now : Nat) (t : Task)
    (hlook : lookupTask s.tasks id = some t)
    (hdz : t.dueDate ≠ 0) (hlt : t.dueDate < now) :
    (∃ e, (fileMarkTaskComplete s id now).1 = .error e) ∧
    (fileMarkTaskComplete s id now).2 = s := by
  have h0 : (t.dueDate == 0) = false := by simp [hdz]
  have h1 : decide (t.dueDate < now) = true := by simp [hlt]
  by_cases hA : s.isActive
  · have hval : Task.ValidateOk { t with status := .Completed, completedAt := now } now = false := by
      simp [Task.ValidateOk, h0, h1]
    constructor
    · exact ⟨.validation, by simp [fileMarkTaskComplete, fileGetTask, hA, hlook, fileUpdateTask, hval]⟩
    · simp [fileMarkTaskComplete, fileGetTask, hA, hlook, fileUpdateTask, hval]
  · constructor
    · exact ⟨.connection, by simp [fileMarkTaskComplete, fileGetTask, hA]⟩
    · simp [fileMarkTaskComplete, fileGetTask, hA]

/-- Witness for C4: store fsLate holds, under id 7, a task with due date 1;
at time 2 the completion attempt fails and the store is unchanged. -/
theorem C4_witness :
    (∃ e, (fileMarkTaskComplete fsLate 7 2).1 = .error e) ∧
    (fileMarkTaskComplete fsLate 7 2).2 = fsLate :=
  C4_markComplete_overdue_fails fsLate 7 2 tLate (by decide) (by decide) (by decide)

/-- Claim C9: updating a valid task whose ID is absent fails with
NotFoundError and returns the store exactly as it was, on both store
implementations. -/
theorem C9_update_absent_id (ms : MemoryStore) (fs : FileStore) (t : Task) (now : Nat)
    (hm : ms.isActive = true) (hf : fs.isActive = true)
    (hv : t.ValidateOk now = true)
    (hml : lookupTask ms.tasks t.id = none)
    (hfl : lookupTask fs.tasks t.id = none) :
    memUpdateTask ms t now = (.error .notFound, ms) ∧
    fileUpdateTask fs t now = (.error .notFound, fs) := by
  constructor <;> simp [memUpdateTask, fileUpdateTask, hm, hf, hv, hml, hfl]

/-- Witness for C9: the empty connected stores and the valid task tValid. -/
theorem C9_witness :
    memUpdateTask newMemoryStore tValid 3 = (.error .notFound, newMemoryStore) ∧
    fileUpdateTask fsEmpty tValid 3 = (.error .notFound, fsEmpty) :=
  C9_update_absent_id newMemoryStore fsEmpty tValid 3 rfl rfl (by decide) rfl rfl

/-- Counterexample to claim C2: the task doneLate (due date 1, Completed),
probed at time 2, is counted overdue by GetProductivityStats (1) and accepted
by the memory store's IsOverdue filter (true), yet the summary's OverdueTasks
count is 0 — the three consumers do not classify under the same condition,
because Task.IsOverdue has no status conjunct. -/
theorem C2_counterexample :
    memGetTaskSummary msDone 2 =
      .ok { totalTasks := 1, completedTasks := 1, pendingTasks := 0,
            overdueTasks := 0, upcomingDeadlines := [] } ∧
    fileGetProductivityStats fsDone 0 5 2 =
      .ok { totalTasks := 1, completedTasks := 1,
            completionRate := some 100, overdueTasks := 1 } ∧
    memMatchesFilter doneLate (some overdueOnlyFilter) 2 = true := by
  refine ⟨by rfl, ?_, by rfl⟩
  show Except.ok _ = Except.ok _
  norm_num [fileGetProductivityStats, fsDone, inCreatedRange, doneLate, defTask,
    Task.IsOverdue]

/-- Claim C2 as amended: the summary's OverdueTasks counts tasks satisfying
Task.IsOverdue AND status not Completed, while GetProductivityStats and the
memory store's IsOverdue filter both use Task.IsOverdue alone (due date
non-zero and strictly before now, with no condition on the status); the
three consumers therefore agree except on Completed tasks with past due
dates. -/
theorem C2_overdue_amended (s : MemoryStore) (f : FileStore) (now a b : Nat) (t : Task)
    (hs : s.isActive = true) (hf : f.isActive = true) :
    (memGetTaskSummary s now).toOption.map TaskSummary.overdueTasks
      = some ((s.tasks.map Prod.snd).countP
          (fun u => u.IsOverdue now && !(u.status == .Completed))) ∧
    (fileGetProductivityStats f a b now).toOption.map ProdStats.overdueTasks
      = some (((f.tasks.map Prod.snd).filter (inCreatedRange a b)).countP
          (fun u => u.IsOverdue now)) ∧
    memMatchesFilter t (some overdueOnlyFilter) now = t.IsOverdue now := by
  refine ⟨?_, ?_, ?_⟩
  · simp [memGetTaskSummary, hs, Except.toOption]
    rfl
  · simp [fileGetProductivityStats, hf, Except.toOption]
  · cases h : t.IsOverdue now <;>
      simp [memMatchesFilter, overdueOnlyFilter, h]

/-- Witness for C2 as amended, at the concrete stores msDone / fsDone and the
concrete task doneLate at time 2. -/
theorem C2_witness :
    (memGetTaskSummary msDone 2).toOption.map TaskSummary.overdueTasks
      = some ((msDone.tasks.map Prod.snd).countP
          (fun u => u.IsOverdue 2 && !(u.status == .Completed))) ∧
    memMatchesFilter doneLate (some overdueOnlyFilter) 2 = doneLate.IsOverdue 2 :=
  ⟨(C2_overdue_amended msDone fsDone 2 0 5 doneLate rfl rfl).1,
   (C2_overdue_amended msDone fsDone 2 0 5 doneLate rfl rfl).2.2⟩

/-- Counterexample to claim C7: under the MemoryStore due_date comparator
(after sortTasks's own preprocessing of the SortOption), the task without a
due date is ordered strictly before the task with one — the memory
comparator has no zero-value special case, and the Go zero time precedes
every set due date. -/
theorem C7_counterexample :
    noDueTask.dueDate = 0 ∧ dueTask.dueDate ≠ 0 ∧
    memLessFn (memSortPrep { Field := "due_date", Ascending := true }) noDueTask dueTask
      = true := by
  refine ⟨rfl, by decide, ?_⟩
  rfl

/-- Claim C7 as amended: the FileStore due_date comparator orders every task
with a due date before every task without one, independently of the
direction flag (its zero checks return before the inversion); the
MemoryStore comparator instead compares raw times, so a task with an unset
(zero) due date is ordered before every task with one, and the memory
sortTasks preprocessing also forces the direction flag to ascending. -/
theorem C7_dueDate_sort_amended (so : SortOption) (a b : Task)
    (hfld : so.Field = "due_date") :
    (a.dueDate ≠ 0 → b.dueDate = 0 → fileLessFn so a b = true) ∧
    (a.dueDate = 0 → fileLessFn so a b = false) ∧
    (memSortPrep so).Ascending = true ∧
    (a.dueDate = 0 → b.dueDate ≠ 0 → memLessFn (memSortPrep so) a b = true) := by
  have hlow : (goToLower so.Field) = "due_date" := by rw [hfld]; rfl
  refine ⟨?_, ?_, rfl, ?_⟩
  · intro ha hb
    simp [fileLessFn, hfld, ha, hb]
  · intro ha
    simp [fileLessFn, hfld, ha]
  · intro ha hb
    simp [memLessFn, memSortPrep, hlow, ha, Nat.pos_of_ne_zero hb]

/-- Witness for C7 as amended at concrete tasks, with a descending
SortOption. -/
theorem C7_witness :
    fileLessFn { Field := "due_date", Ascending := false } dueTask noDueTask = true ∧
    memLessFn (memSortPrep { Field := "due_date", Ascending := false }) noDueTask dueTask
      = true :=
  ⟨(C7_dueDate_sort_amended { Field := "due_date", Ascending := false } dueTask noDueTask
      rfl).1 (by decide) rfl,
   (C7_dueDate_sort_amended { Field := "due_date", Ascending := false } noDueTask dueTask
      rfl).2.2.2 rfl (by decide)⟩

/-- Counterexample to claim C6: tagTask matches the query "work" only through
its tag, and the spec predicate accepts it, yet MemoryStore.SearchTasks on a
store holding exactly tagTask returns the empty list — the memory
implementation never examines tags. -/
theorem C6_counterexample :
    specSearchMatch tagTask "work" = true ∧
    memSearchTasks msTag "work" = .ok [] := by
  exact ⟨rfl, rfl⟩

/-- Claim C6 as amended: FileStore.SearchTasks returns a stored task exactly
when the lower-cased query occurs in the lower-cased name, description,
category, or some tag (the spec predicate); MemoryStore.SearchTasks returns
a stored task exactly when the query occurs in the lower-cased name,
description or category only — a task whose sole match is in its tags is
returned by the file store but not by the memory store. -/
theorem C6_search_amended (ms : MemoryStore) (fs : FileStore) (q : String) (t : Task)
    (hm : ms.isActive = true) (hf : fs.isActive = true) :
    (∀ res, memSearchTasks ms q = .ok res →
      (t ∈ res ↔ t ∈ ms.tasks.map Prod.snd ∧
        (goContains (goToLower t.name) (goToLower q) ||
         goContains (goToLower t.description) (goToLower q) ||
         goContains (goToLower t.category) (goToLower q)) = true)) ∧
    (∀ res, fileSearchTasks fs q = .ok res →
      (t ∈ res ↔ t ∈ fs.tasks.map Prod.snd ∧ specSearchMatch t q = true)) := by
  constructor
  · intro res hres
    simp only [memSearchTasks, hm, Bool.not_true, Bool.false_eq_true, if_false] at hres
    cases hres
    simp [List.mem_filter]
  · intro res hres
    simp only [fileSearchTasks, hf, Bool.not_true, Bool.false_eq_true, if_false] at hres
    cases hres
    have hEq : ∀ u : Task, fileTaskMatchesSearch u (goToLower q) = specSearchMatch u q :=
      fun u => rfl
    simp [List.mem_filter, hEq]

/-- Witness for C6 as amended: at the concrete file store fsTag, tagTask is
in the search result for "work" if and only if the spec predicate accepts
it. -/
theorem C6_witness :
    tagTask ∈ [tagTask] ↔
      tagTask ∈ fsTag.tasks.map Prod.snd ∧ specSearchMatch tagTask "work" = true :=
  (C6_search_amended msTag fsTag "work" tagTask rfl rfl).2 [tagTask] (by rfl)

/-- The two paginateTasks bodies are identical code, so the functions are
definitionally equal. -/
theorem filePaginate_eq_memPaginate (ts : List Task) (po : Option Page) :
    filePaginateTasks ts po = memPaginateTasks ts po := rfl

/-- With a positive limit and nil pagination disabled, a non-positive offset
case aside, paginateTasks returns the [offset, offset+limit) slice clamped to
the list length. -/
theorem memPaginate_clamp (ts : List Task) (p : Page) (hL : 0 < p.Limit) (hO : 0 ≤ p.Offset) :
    memPaginateTasks ts (some p)
      = some ((ts.drop p.Offset.toNat).take (min p.Limit ((ts.length : Int) - p.Offset)).toNat) := by
  simp only [memPaginateTasks]
  rw [if_neg (by omega)]
  by_cases hlen : (ts.length : Int) ≤ p.Offset
  · rw [if_pos hlen]
    have hz : (min p.Limit ((ts.length : Int) - p.Offset)).toNat = 0 := by omega
    rw [hz, List.take_zero]
  · rw [if_neg hlen, if_neg (by omega)]
    have harg : ((if (ts.length : Int) < p.Offset + p.Limit then (ts.length : Int)
        else p.Offset + p.Limit) - p.Offset).toNat
        = (min p.Limit ((ts.length : Int) - p.Offset)).toNat := by
      split_ifs <;> omega
    rw [harg]

/-- Counterexample to claim C10: with one task in the list and the Page value
Offset = -1, Limit = 1, paginateTasks reaches the slice expression
tasks[-1:0], which panics in Go (slice bounds out of range) — not the claimed
clamped slice, and an abnormal termination rather than a value. -/
theorem C10_counterexample :
    memPaginateTasks [defTask] (some { Offset := -1, Limit := 1 }) = none := by
  rfl

/-- Claim C10 as amended: for Limit ≤ 0 the list is returned unchanged; for a
positive Limit and non-negative Offset the result is the slice
[Offset, Offset+Limit) clamped to the list length — in particular empty, and
no error, whenever Offset is at least the list length; but for a positive
Limit and a negative Offset the slice expression panics.  Both store
implementations behave identically. -/
theorem C10_pagination_amended (ts : List Task) (p : Page) :
    (memPaginateTasks ts none = some ts ∧ filePaginateTasks ts none = some ts) ∧
    (p.Limit ≤ 0 →
      memPaginateTasks ts (some p) = some ts ∧
      filePaginateTasks ts (some p) = some ts) ∧
    (0 < p.Limit → 0 ≤ p.Offset →
      memPaginateTasks ts (some p)
        = some ((ts.drop p.Offset.toNat).take (min p.Limit ((ts.length : Int) - p.Offset)).toNat) ∧
      filePaginateTasks ts (some p)
        = some ((ts.drop p.Offset.toNat).take (min p.Limit ((ts.length : Int) - p.Offset)).toNat)) ∧
    (0 < p.Limit → (ts.length : Int) ≤ p.Offset →
      memPaginateTasks ts (some p) = some [] ∧
      filePaginateTasks ts (some p) = some []) ∧
    (0 < p.Limit → p.Offset < 0 →
      memPaginateTasks ts (some p) = none ∧
      filePaginateTasks ts (some p) = none) := by
  have hfm := filePaginate_eq_memPaginate ts (some p)
  refine ⟨⟨rfl, filePaginate_eq_memPaginate ts none⟩, ?_, ?_, ?_, ?_⟩
  · intro hL
    have h1 : memPaginateTasks ts (some p) = some ts := by
      simp only [memPaginateTasks]
      rw [if_pos hL]
    exact ⟨h1, hfm.trans h1⟩
  · intro hL hO
    have h1 := memPaginate_clamp ts p hL hO
    exact ⟨h1, hfm.trans h1⟩
  · intro hL hlen
    have h1 : memPaginateTasks ts (some p) = some [] := by
      simp only [memPaginateTasks]
      rw [if_neg (by omega), if_pos hlen]
    exact ⟨h1, hfm.trans h1⟩
  · intro hL hO
    have h1 : memPaginateTasks ts (some p) = none := by
      simp only [memPaginateTasks]
      rw [if_neg (by omega), if_neg (by omega), if_pos hO]
    exact ⟨h1, hfm.trans h1⟩

/-- Witness for C10 as amended: the clamped-slice case at Offset 0, Limit 1
on a one-task list, and the panic case at Offset -1. -/
theorem C10_witness :
    memPaginateTasks [defTask] (some { Offset := 0, Limit := 1 })
      = some (([defTask].drop (0 : Int).toNat).take
          (min (1 : Int) (([defTask].length : Int) - 0)).toNat) ∧
    filePaginateTasks [defTask] (some { Offset := -1, Limit := 1 }) = none :=
  ⟨((C10_pagination_amended [defTask] { Offset := 0, Limit := 1 }).2.2.1
      (by decide) (by decide)).1,
   ((C10_pagination_amended [defTask] { Offset := -1, Limit := 1 }).2.2.2.2
      (by decide) (by decide)).2⟩

/-- Deleting a key changes exactly that key's lookup. -/
theorem lookup_eraseTask (m : List (Nat × Task)) (id k : Nat) :
    lookupTask (eraseTask m id) k = if k = id then none else lookupTask m k := by
  induction m with
  | nil =>
    simp only [eraseTask, List.filter_nil, lookupTask]
    split <;> rfl
  | cons p rest ih =>
    simp only [eraseTask, List.filter_cons] at ih ⊢
    by_cases hp : p.1 = id
    · rw [if_neg (by simp [hp]), ih]
      by_cases hk : k = id
      · simp [hk]
      · rw [if_neg hk, if_neg hk]
        simp only [lookupTask]
        rw [if_neg (by omega)]
    · rw [if_pos (by simp [hp])]
      simp only [lookupTask]
      by_cases hpk : p.1 = k
      · rw [if_pos hpk, if_neg (by omega), if_pos hpk]
      · rw [if_neg hpk, ih]
        by_cases hk : k = id
        · simp [hk]
        · rw [if_neg hk, if_neg hk, if_neg hpk]

/-- If some id in the list is absent, the deletion loop stops with a failing
id. -/
theorem deleteLoop_fails_of_absent (ids : List Nat) :
    ∀ m : List (Nat × Task), (∃ id ∈ ids, lookupTask m id = none) →
      (deleteTasksLoop m ids).1.isSome = true := by
  induction ids with
  | nil => intro m h; simp at h
  | cons id rest ih =>
    intro m h
    by_cases hid : (lookupTask m id).isSome
    · have hstep : deleteTasksLoop m (id :: rest) = deleteTasksLoop (eraseTask m id) rest := by
        simp [deleteTasksLoop, hid]
      rw [hstep]
      obtain ⟨w, hw, hwnone⟩ := h
      rcases List.mem_cons.mp hw with hw1 | hw2
      · subst hw1
        rw [hwnone] at hid
        simp at hid
      · refine ih (eraseTask m id) ⟨w, hw2, ?_⟩
        rw [lookup_eraseTask]
        split
        · rfl
        · exact hwnone
    · simp [deleteTasksLoop, hid]

/-- If the ids are distinct and all present, the loop succeeds and afterwards
exactly those keys are gone. -/
theorem deleteLoop_ok_of_present (ids : List Nat) :
    ∀ m : List (Nat × Task), ids.Nodup →
      (∀ id ∈ ids, (lookupTask m id).isSome = true) →
      (deleteTasksLoop m ids).1 = none ∧
      ∀ k, lookupTask (deleteTasksLoop m ids).2 k
        = if k ∈ ids then none else lookupTask m k := by
  induction ids with
  | nil =>
    intro m _ _
    refine ⟨rfl, fun k => ?_⟩
    simp [deleteTasksLoop]
  | cons id rest ih =>
    intro m hnd hall
    have hid : (lookupTask m id).isSome = true := hall id (List.mem_cons_self id rest)
    have hstep : deleteTasksLoop m (id :: rest) = deleteTasksLoop (eraseTask m id) rest := by
      simp [deleteTasksLoop, hid]
    have hnd2 := List.nodup_cons.mp hnd
    have hall2 : ∀ w ∈ rest, (lookupTask (eraseTask m id) w).isSome = true := by
      intro w hw
      rw [lookup_eraseTask, if_neg (by rintro rfl; exact hnd2.1 hw)]
      exact hall w (List.mem_cons_of_mem id hw)
    obtain ⟨h1, h2⟩ := ih (eraseTask m id) hnd2.2 hall2
    rw [hstep]
    refine ⟨h1, fun k => ?_⟩
    rw [h2 k, lookup_eraseTask]
    by_cases hk1 : k ∈ rest
    · simp [hk1, List.mem_cons]
    · by_cases hk2 : k = id
      · simp [hk1, hk2]
      · simp [hk1, hk2, List.mem_cons]

/-- When the loop fails it has consumed a prefix of the id list: everything
before the failing id has already been erased, and the failing id is absent
from that partially-erased map. -/
theorem deleteLoop_decompose (ids : List Nat) :
    ∀ (m : List (Nat × Task)) (f : Nat), (deleteTasksLoop m ids).1 = some f →
      ∃ pre rest, ids = pre ++ f :: rest ∧
        (deleteTasksLoop m ids).2 = pre.foldl eraseTask m ∧
        lookupTask (pre.foldl eraseTask m) f = none := by
  induction ids with
  | nil => intro m f h; simp [deleteTasksLoop] at h
  | cons id rest ih =>
    intro m f h
    by_cases hid : (lookupTask m id).isSome
    · have hstep : deleteTasksLoop m (id :: rest) = deleteTasksLoop (eraseTask m id) rest := by
        simp [deleteTasksLoop, hid]
      rw [hstep] at h ⊢
      obtain ⟨pre, rest2, hsplit, hmap, hnone⟩ := ih (eraseTask m id) f h
      exact ⟨id :: pre, rest2, by rw [hsplit]; rfl, hmap, hnone⟩
    · have hv : deleteTasksLoop m (id :: rest) = (some id, m) := by
        simp [deleteTasksLoop, hid]
      rw [hv] at h ⊢
      have hif : id = f := by
        have h2 : some id = some f := h
        injection h2
      subst hif
      exact ⟨[], rest, rfl, rfl, Option.not_isSome_iff_eq_none.mp hid⟩

/-- Counterexample to claim C5: the store fsOne holds only id 1; DeleteTasks
with ids [1, 2] fails with NotFoundError (2 is absent) but the record set is
not left unchanged — task 1 has already been removed. -/
theorem C5_counterexample :
    (fileDeleteTasks fsOne [1, 2]).1 = .error .notFound ∧
    (fileDeleteTasks fsOne [1, 2]).2.tasks = [] ∧
    fsOne.tasks ≠ [] := by
  refine ⟨rfl, rfl, by decide⟩

/-- Claim C5 as amended: on a connected file store, a batch delete whose id
list contains an absent id fails with NotFoundError, but the ids scanned
before the first absent one have already been removed (best-effort, not
all-or-nothing); a batch delete of distinct, all-present ids succeeds and
removes exactly those records. -/
theorem C5_deleteTasks_amended (s : FileStore) (ids : List Nat)
    (h : s.isActive = true) :
    ((∃ id ∈ ids, lookupTask s.tasks id = none) →
      (fileDeleteTasks s ids).1 = .error .notFound) ∧
    (ids.Nodup → (∀ id ∈ ids, (lookupTask s.tasks id).isSome = true) →
      (fileDeleteTasks s ids).1 = .ok () ∧
      ∀ k, lookupTask (fileDeleteTasks s ids).2.tasks k
        = if k ∈ ids then none else lookupTask s.tasks k) ∧
    (∀ e, (fileDeleteTasks s ids).1 = .error e →
      ∃ pre f rest, ids = pre ++ f :: rest ∧
        (fileDeleteTasks s ids).2.tasks = pre.foldl eraseTask s.tasks ∧
        lookupTask (pre.foldl eraseTask s.tasks) f = none) := by
  have hact : (!s.isActive) = false := by rw [h]; rfl
  refine ⟨?_, ?_, ?_⟩
  · intro habs
    have hfail := deleteLoop_fails_of_absent ids s.tasks habs
    obtain ⟨f, hf⟩ := Option.isSome_iff_exists.mp hfail
    have hpair : deleteTasksLoop s.tasks ids = (some f, (deleteTasksLoop s.tasks ids).2) :=
      Prod.ext_iff.mpr ⟨hf, rfl⟩
    simp only [fileDeleteTasks, hact, Bool.false_eq_true, if_false]
    rw [hpair]
  · intro hnd hall
    obtain ⟨h1, h2⟩ := deleteLoop_ok_of_present ids s.tasks hnd hall
    have hpair : deleteTasksLoop s.tasks ids = (none, (deleteTasksLoop s.tasks ids).2) :=
      Prod.ext_iff.mpr ⟨h1, rfl⟩
    simp only [fileDeleteTasks, hact, Bool.false_eq_true, if_false]
    rw [hpair]
    exact ⟨rfl, fun k => h2 k⟩
  · intro e he
    simp only [fileDeleteTasks, hact, Bool.false_eq_true, if_false] at he ⊢
    rcases hfst : (deleteTasksLoop s.tasks ids).1 with _ | f
    · have hpair : deleteTasksLoop s.tasks ids = (none, (deleteTasksLoop s.tasks ids).2) :=
        Prod.ext_iff.mpr ⟨hfst, rfl⟩
      rw [hpair] at he
      simp at he
    · obtain ⟨pre, rest, hsplit, hmap, hnone⟩ := deleteLoop_decompose ids s.tasks f hfst
      have hpair : deleteTasksLoop s.tasks ids = (some f, (deleteTasksLoop s.tasks ids).2) :=
        Prod.ext_iff.mpr ⟨hfst, rfl⟩
      rw [hpair]
      exact ⟨pre, f, rest, hsplit, hmap, hnone⟩

/-- Witness for C5 as amended: at fsOne with ids [1, 2], 2 is absent, so the
call fails with NotFoundError, and the failing run decomposes as prefix [1]
(already erased) followed by the absent id 2. -/
theorem C5_witness :
    (fileDeleteTasks fsOne [1, 2]).1 = .error .notFound ∧
    (∃ pre f rest, ([1, 2] : List Nat) = pre ++ f :: rest ∧
      (fileDeleteTasks fsOne [1, 2]).2.tasks = pre.foldl eraseTask fsOne.tasks ∧
      lookupTask (pre.foldl eraseTask fsOne.tasks) f = none) := by
  have h1 := (C5_deleteTasks_amended fsOne [1, 2] rfl).1
    ⟨2, by decide, by decide⟩
  exact ⟨h1, (C5_deleteTasks_amended fsOne [1, 2] rfl).2.2 .notFound h1⟩

/-- Shape of a successful CreateTask call on the memory store. -/
theorem memCreateTask_success (s : MemoryStore) (t : Task) (now : Nat)
    (hA : s.isActive = true) (hV : t.ValidateOk now = true) :
    memCreateTask s t now =
      (.ok (stampTask t (s.maxID + 1) now),
       { s with
         maxID := s.maxID + 1
         tasks := insertTask s.tasks (s.maxID + 1) (stampTask t (s.maxID + 1) now) }) := by
  simp [memCreateTask, hA, hV, stampTask]

/-- The ids assigned by the successful creates in an operation sequence are
the consecutive naturals starting one past the store's current counter. -/
theorem memRunOps_ids_from (ops : List MemOp) :
    ∀ s : MemoryStore,
      (memRunOps s ops).2 = List.range' (s.maxID + 1) (memRunOps s ops).2.length := by
  induction ops with
  | nil => intro s; rfl
  | cons op rest ih =>
    intro s
    cases op with
    | create t now =>
      by_cases hA : s.isActive
      · by_cases hV : t.ValidateOk now = true
        · have hc := memCreateTask_success s t now hA hV
          have ih2 := ih { s with
            maxID := s.maxID + 1
            tasks := insertTask s.tasks (s.maxID + 1) (stampTask t (s.maxID + 1) now) }
          simp only [memRunOps, hc, List.singleton_append, List.length_cons]
          rw [List.range'_succ]
          exact congrArg (List.cons (stampTask t (s.maxID + 1) now).id) ih2
        · have hc : memCreateTask s t now = (.error .validation, s) := by
            simp [memCreateTask, hA, hV]
          simpa only [memRunOps, hc, List.nil_append] using ih s
      · have hc : memCreateTask s t now = (.error .connection, s) := by
          simp [memCreateTask, hA]
        simpa only [memRunOps, hc, List.nil_append] using ih s
    | delete id =>
      have hd : ((memDeleteTask s id).2).maxID = s.maxID := by
        simp only [memDeleteTask]
        split
        · rfl
        · split <;> rfl
      have ih2 := ih ((memDeleteTask s id).2)
      rw [hd] at ih2
      simpa only [memRunOps, List.nil_append] using ih2

/-- Go map writes preserve the key-matches-stored-id invariant when the
written task carries the key as its id. -/
theorem insertTask_consistent (m : List (Nat × Task)) (id : Nat) (t : Task)
    (hm : ∀ p ∈ m, p.2.id = p.1) (ht : t.id = id) :
    ∀ p ∈ insertTask m id t, p.2.id = p.1 := by
  intro p hp
  unfold insertTask at hp
  split at hp
  · obtain ⟨q, hq, hqe⟩ := List.mem_map.mp hp
    by_cases hqi : q.1 = id
    · rw [if_pos hqi] at hqe
      rw [← hqe]
      exact ht
    · rw [if_neg hqi] at hqe
      rw [← hqe]
      exact hm q hq
  · rcases List.mem_append.mp hp with h1 | h2
    · exact hm p h1
    · rw [List.mem_singleton] at h2
      rw [h2]
      exact ht

/-- Go map deletes preserve the key-matches-stored-id invariant. -/
theorem eraseTask_consistent (m : List (Nat × Task)) (id : Nat)
    (hm : ∀ p ∈ m, p.2.id = p.1) :
    ∀ p ∈ eraseTask m id, p.2.id = p.1 :=
  fun p hp => hm p (List.mem_of_mem_filter hp)

/-- Every record reachable by a create/delete sequence stores, under key k,
a task whose id field is k. -/
theorem memRunOps_consistent (ops : List MemOp) :
    ∀ s : MemoryStore, (∀ p ∈ s.tasks, p.2.id = p.1) →
      ∀ p ∈ (memRunOps s ops).1.tasks, p.2.id = p.1 := by
  induction ops with
  | nil => intro s hs; exact hs
  | cons op rest ih =>
    intro s hs
    cases op with
    | create t now =>
      by_cases hA : s.isActive
      · by_cases hV : t.ValidateOk now = true
        · have hc := memCreateTask_success s t now hA hV
          simp only [memRunOps, hc]
          exact ih _
            (insertTask_consistent s.tasks (s.maxID + 1) (stampTask t (s.maxID + 1) now) hs rfl)
        · have hc : memCreateTask s t now = (.error .validation, s) := by
            simp [memCreateTask, hA, hV]
          simp only [memRunOps, hc]
          exact ih s hs
      · have hc : memCreateTask s t now = (.error .connection, s) := by
          simp [memCreateTask, hA]
        simp only [memRunOps, hc]
        exact ih s hs
    | delete id =>
      simp only [memRunOps]
      refine ih _ ?_
      by_cases hA : s.isActive
      · by_cases hL : (lookupTask s.tasks id).isSome
        · have hv : memDeleteTask s id = (.ok (), { s with tasks := eraseTask s.tasks id }) := by
            simp [memDeleteTask, hA, hL]
          rw [hv]
          exact eraseTask_consistent _ _ hs
        · have hv : memDeleteTask s id = (.error .notFound, s) := by
            simp [memDeleteTask, hA, hL]
          rw [hv]
          exact hs
      · have hv : memDeleteTask s id = (.error .connection, s) := by
          simp [memDeleteTask, hA]
        rw [hv]
        exact hs

/-- Claim C8: over every sequence of CreateTask / DeleteTask calls on a fresh
MemoryStore, the ids assigned by the (successful) creates form, in order, the
initial segment 1, 2, ..., k — strictly increasing starting at 1 and never
repeating, deletes notwithstanding, and independent of any caller-supplied id
on the created task — and every stored record carries the engine-assigned key
as its id field. -/
theorem C8_ids_monotone (ops : List MemOp) :
    (memRunOps newMemoryStore ops).2
      = List.range' 1 (memRunOps newMemoryStore ops).2.length ∧
    ∀ p ∈ (memRunOps newMemoryStore ops).1.tasks, p.2.id = p.1 :=
  ⟨memRunOps_ids_from ops newMemoryStore,
   memRunOps_consistent ops newMemoryStore (by intro p hp; simp [newMemoryStore] at hp)⟩

/-- Witness for C8 at the concrete sequence create, create, delete 1: the
assigned ids are [1, 2] and the surviving record (2, ...) carries id 2. -/
theorem C8_witness :
    (memRunOps newMemoryStore demoOps).2
      = List.range' 1 (memRunOps newMemoryStore demoOps).2.length ∧
    demoPair.2.id = demoPair.1 :=
  ⟨(C8_ids_monotone demoOps).1, (C8_ids_monotone demoOps).2 demoPair (by decide)⟩

end TodoCli
